import Mathlib

/-!
# Verification of the audio-translation page logic

Shallow embedding of the record → encode → request → render flow of
`src/index.tsx` (a React page around one generative-AI call), together with
proofs of the specified properties.

Bytes are modelled as `Nat` values below 256; a blob is its byte list plus a
flag saying whether the platform file reader can read it.  The base64 encoder
models the platform `FileReader.readAsDataURL` output (standard RFC 4648
alphabet with `=` padding); the matching decoder is defined alongside for the
round-trip law.
-/

namespace AmerApp

/-- The standard base64 alphabet, indexed by a sextet value below 64. -/
def b64Char (i : Nat) : Char :=
  if i < 26 then Char.ofNat (65 + i)
  else if i < 52 then Char.ofNat (97 + (i - 26))
  else if i < 62 then Char.ofNat (48 + (i - 52))
  else if i = 62 then '+'
  else '/'

/-- Encode one sextet; the masking by 64 mirrors the bit extraction done by
platform base64 encoders. -/
def encodeChar (s : Nat) : Char := b64Char (s % 64)

/-- Decode one base64 alphabet character back to its sextet value. -/
def decodeChar (c : Char) : Option Nat :=
  if 65 ≤ c.toNat ∧ c.toNat ≤ 90 then some (c.toNat - 65)
  else if 97 ≤ c.toNat ∧ c.toNat ≤ 122 then some (c.toNat - 97 + 26)
  else if 48 ≤ c.toNat ∧ c.toNat ≤ 57 then some (c.toNat - 48 + 52)
  else if c = '+' then some 62
  else if c = '/' then some 63
  else none

/-- Encode a full 3-byte group as four base64 characters. -/
def encode3 (b0 b1 b2 : Nat) : List Char :=
  let n := b0 * 65536 + b1 * 256 + b2
  [encodeChar (n / 262144), encodeChar (n / 4096), encodeChar (n / 64), encodeChar n]

/-- Standard base64 encoding of a byte list, with `=` padding, as produced by
the platform encoder behind `FileReader.readAsDataURL`. -/
def encodeBytes : List Nat → List Char
  | [] => []
  | [b0] =>
    let n := b0 * 65536
    [encodeChar (n / 262144), encodeChar (n / 4096), '=', '=']
  | [b0, b1] =>
    let n := b0 * 65536 + b1 * 256
    [encodeChar (n / 262144), encodeChar (n / 4096), encodeChar (n / 64), '=']
  | b0 :: b1 :: b2 :: rest => encode3 b0 b1 b2 ++ encodeBytes rest

/-- The matching base64 decoder: consumes four characters at a time, honouring
terminal `=` padding, and fails on any malformed input. -/
def decodeBytes : List Char → Option (List Nat)
  | [] => some []
  | c0 :: c1 :: c2 :: c3 :: rest =>
    match decodeChar c0, decodeChar c1 with
    | some s0, some s1 =>
      if c2 = '=' then
        if c3 = '=' ∧ rest = [] then some [s0 * 4 + s1 / 16] else none
      else
        match decodeChar c2 with
        | some s2 =>
          if c3 = '=' then
            if rest = [] then some [s0 * 4 + s1 / 16, s1 % 16 * 16 + s2 / 4] else none
          else
            match decodeChar c3, decodeBytes rest with
            | some s3, some bs =>
              some ((s0 * 4 + s1 / 16) :: (s1 % 16 * 16 + s2 / 4) :: (s2 % 4 * 64 + s3) :: bs)
            | _, _ => none
        | none => none
    | _, _ => none
  | _ => none

theorem b64Char_decode : ∀ i < 64, decodeChar (b64Char i) = some i := by decide

theorem b64Char_ne_eq : ∀ i < 64, b64Char i ≠ '=' := by decide

theorem b64Char_ne_comma : ∀ i < 64, b64Char i ≠ ',' := by decide

theorem encodeChar_decode (s : Nat) : decodeChar (encodeChar s) = some (s % 64) :=
  b64Char_decode (s % 64) (Nat.mod_lt _ (by omega))

theorem encodeChar_ne_eq (s : Nat) : encodeChar s ≠ '=' :=
  b64Char_ne_eq (s % 64) (Nat.mod_lt _ (by omega))

theorem encodeChar_ne_comma (s : Nat) : encodeChar s ≠ ',' :=
  b64Char_ne_comma (s % 64) (Nat.mod_lt _ (by omega))

theorem comma_ne_encodeChar (s : Nat) : ¬(',' = encodeChar s) :=
  fun h => encodeChar_ne_comma s h.symm

theorem comma_not_mem_encodeBytes : ∀ bs : List Nat, ',' ∉ encodeBytes bs
  | [] => by simp [encodeBytes]
  | [b0] => by simp [encodeBytes, comma_ne_encodeChar]
  | [b0, b1] => by simp [encodeBytes, comma_ne_encodeChar]
  | b0 :: b1 :: b2 :: rest => by
    have ih := comma_not_mem_encodeBytes rest
    simp [encodeBytes, encode3, comma_ne_encodeChar, ih]

/-- The round-trip law at the byte-list level: decoding the base64 encoding of
any byte list recovers it exactly. -/
theorem decodeBytes_encodeBytes : ∀ bs : List Nat, (∀ b ∈ bs, b < 256) →
    decodeBytes (encodeBytes bs) = some bs
  | [], _ => rfl
  | [b0], h => by
    have hb0 : b0 < 256 := h b0 (by simp)
    simp [encodeBytes, decodeBytes, encodeChar_decode]
    omega
  | [b0, b1], h => by
    have hb0 : b0 < 256 := h b0 (by simp)
    have hb1 : b1 < 256 := h b1 (by simp)
    simp [encodeBytes, decodeBytes, encodeChar_decode, encodeChar_ne_eq]
    omega
  | b0 :: b1 :: b2 :: rest, h => by
    have hb0 : b0 < 256 := h b0 (by simp)
    have hb1 : b1 < 256 := h b1 (by simp)
    have hb2 : b2 < 256 := h b2 (by simp)
    have ih := decodeBytes_encodeBytes rest (fun b hb => h b (by simp [hb]))
    simp [encodeBytes, encode3, decodeBytes, encodeChar_decode, encodeChar_ne_eq, ih]
    omega

/-- An audio blob: its byte content plus whether the platform file reader can
read it (an unreadable blob makes `FileReader` fire `onerror`). -/
structure Blob where
  bytes : List Nat
  readable : Bool
  deriving Repr, DecidableEq

/-- The data URL produced by `FileReader.readAsDataURL` on an `audio/webm`
blob: the fixed header followed by the base64 text of the bytes. -/
def dataUrl (b : Blob) : List Char :=
  "data:audio/webm;base64,".toList ++ encodeBytes b.bytes

/-- `FileReader.readAsDataURL`: yields the data URL, or nothing when the read
errors (modelled by the readable flag). -/
def readAsDataURL (b : Blob) : Option (List Char) :=
  if b.readable then some (dataUrl b) else none

/-- The split on commas performed by `base64String.split(',')` in
`blobToBase64` (src/index.tsx line 12). -/
def splitComma : List Char → List (List Char)
  | [] => [[]]
  | c :: rest =>
    if c = ',' then [] :: splitComma rest
    else
      match splitComma rest with
      | [] => [[c]]
      | h :: t => (c :: h) :: t

/-- `blobToBase64` (src/index.tsx lines 7-18): reads the blob as a data URL,
splits it at commas and resolves with element 1; rejects when the reader
fires `onerror`. -/
def blobToBase64 (b : Blob) : Except Unit String :=
  match readAsDataURL b with
  | some base64String => Except.ok (String.mk ((splitComma base64String).getD 1 []))
  | none => Except.error ()

theorem splitComma_of_not_mem : ∀ l : List Char, ',' ∉ l → splitComma l = [l]
  | [], _ => rfl
  | c :: rest, h => by
    have hc : ¬(c = ',') := fun hc => h (by simp [hc])
    have ih := splitComma_of_not_mem rest (fun hm => h (by simp [hm]))
    simp [splitComma, hc, ih]

theorem splitComma_append : ∀ p q : List Char, ',' ∉ p →
    splitComma (p ++ ',' :: q) = p :: splitComma q
  | [], q, _ => by simp [splitComma]
  | c :: p, q, h => by
    have hc : ¬(c = ',') := fun hc => h (by simp [hc])
    have ih := splitComma_append p q (fun hm => h (by simp [hm]))
    simp [splitComma, hc, ih]

theorem dataUrl_split (b : Blob) :
    splitComma (dataUrl b) = ["data:audio/webm;base64".toList, encodeBytes b.bytes] := by
  have hpre : "data:audio/webm;base64,".toList =
      "data:audio/webm;base64".toList ++ ',' :: [] := by decide
  rw [dataUrl, hpre, List.append_assoc, List.cons_append, List.nil_append]
  rw [splitComma_append _ _ (by decide)]
  rw [splitComma_of_not_mem _ (comma_not_mem_encodeBytes b.bytes)]

/-- Closed form of `blobToBase64`: a readable blob resolves with exactly the
base64 text of its bytes; an unreadable one rejects. -/
theorem blobToBase64_eq (b : Blob) :
    blobToBase64 b =
      if b.readable then Except.ok (String.mk (encodeBytes b.bytes)) else Except.error () := by
  unfold blobToBase64 readAsDataURL
  cases hr : b.readable
  · simp
  · simp [dataUrl_split b]

/-- The object stored by `setResult(JSON.parse(jsonText))` (src/index.tsx
line 104): the parse is unconstrained on the client, so either field may be
absent from the parsed object. -/
structure ParsedResult where
  transcription : Option String
  translation : Option String
  deriving Repr, DecidableEq

/-- The view state of `App` (src/index.tsx lines 21-29): the six `useState`
fields plus the two refs (`mediaRecorderRef` as a presence flag, `chunksRef`
as the accumulated chunk byte lists). -/
structure AppState where
  isRecording : Bool
  isProcessing : Bool
  audioUrl : Option String
  audioBlob : Option Blob
  result : Option ParsedResult
  error : Option String
  recorderPresent : Bool
  chunks : List (List Nat)
  deriving Repr, DecidableEq

/-- The microphone error message set at src/index.tsx line 61. -/
def micErrorMsg : String := "يرجى السماح بالوصول إلى الميكروفون للتسجيل."

/-- The processing error message set at src/index.tsx line 108. -/
def processingErrorMsg : String := "حدث خطأ أثناء المعالجة. يرجى المحاولة مرة أخرى."

/-- `startRecording` (src/index.tsx lines 31-63): clears error, result, url,
blob and chunks, then either acquires the recorder and enters the recording
state, or reports the denied microphone permission. -/
def startRecording (s : AppState) (granted : Bool) : AppState :=
  let s1 : AppState :=
    { s with error := none, result := none, audioUrl := none,
             audioBlob := none, chunks := [] }
  if granted then { s1 with recorderPresent := true, isRecording := true }
  else { s1 with error := some micErrorMsg }

/-- `stopRecording` (src/index.tsx lines 65-70): stops the recorder and leaves
the recording state only when a recorder is present and recording is active.
The returned flag records whether `mediaRecorder.stop()` was invoked. -/
def stopRecording (s : AppState) : AppState × Bool :=
  if s.recorderPresent && s.isRecording then ({ s with isRecording := false }, true)
  else (s, false)

/-- `reset` (src/index.tsx lines 114-119). -/
def reset (s : AppState) : AppState :=
  { s with result := none, audioBlob := none, audioUrl := none, error := none }

/-- JavaScript truthiness of `response.text` as tested by `if (jsonText)`
(src/index.tsx line 103): false for `undefined` and for the empty string. -/
def jsTruthy : Option String → Bool
  | none => false
  | some t => !t.isEmpty

/-- Environment of one `generateContent` call: the call throws, or it returns
a response whose `text` field is given, together with the outcome of
`JSON.parse` on that text (`Except.error` models a parse throw). -/
inductive CallResult where
  | throws
  | returns (text : Option String) (parsed : Except Unit ParsedResult)

/-- Result of running `translateAudio`: the final view state, whether encoding
was attempted, and whether the remote request was sent. -/
structure TranslateOutcome where
  state : AppState
  encodeAttempted : Bool
  requestSent : Bool
  deriving Repr, DecidableEq

/-- `translateAudio` (src/index.tsx lines 72-112): returns immediately without
a capture; otherwise sets processing, clears the error, encodes the blob,
issues the call, stores the parsed response when its text is truthy, routes
every thrown error to the fixed message, and finally clears processing. -/
def translateAudio (s : AppState) (call : CallResult) : TranslateOutcome :=
  match s.audioBlob with
  | none => ⟨s, false, false⟩
  | some blob =>
    let s1 : AppState := { s with isProcessing := true, error := none }
    match blobToBase64 blob with
    | Except.error _ =>
      ⟨{ s1 with error := some processingErrorMsg, isProcessing := false }, true, false⟩
    | Except.ok _ =>
      match call with
      | CallResult.throws =>
        ⟨{ s1 with error := some processingErrorMsg, isProcessing := false }, true, true⟩
      | CallResult.returns text parsed =>
        if jsTruthy text then
          match parsed with
          | Except.error _ =>
            ⟨{ s1 with error := some processingErrorMsg, isProcessing := false }, true, true⟩
          | Except.ok r =>
            ⟨{ s1 with result := some r, isProcessing := false }, true, true⟩
        else ⟨{ s1 with isProcessing := false }, true, true⟩

/-- Whether the translate button can fire (src/index.tsx lines 187, 202-203):
it is rendered only when no result is shown, a capture is present and
recording is inactive, and it is disabled while processing. -/
def submitEnabled (s : AppState) : Bool :=
  s.result.isNone && s.audioBlob.isSome && !s.isRecording && !s.isProcessing

/-- The submit action as reachable through the page: `translateAudio` runs
only when the translate button is rendered and enabled. -/
def submitAction (s : AppState) (call : CallResult) : TranslateOutcome :=
  if submitEnabled s then translateAudio s call else ⟨s, false, false⟩

/-- Whether the result panel is rendered (src/index.tsx line 210). -/
def showsResult (s : AppState) : Bool := s.result.isSome

/-- Whether the error banner is rendered (src/index.tsx line 222). -/
def showsError (s : AppState) : Bool := s.error.isSome

/-- Claim C2 counterexample: the encode operation does not fail on the empty
blob; a readable empty blob resolves successfully with the empty base64
text. -/
theorem c2_counterexample :
    blobToBase64 ⟨[], true⟩ = Except.ok "" ∧ blobToBase64 ⟨[], true⟩ ≠ Except.error () := by
  have he : blobToBase64 ⟨[], true⟩ = Except.ok "" := rfl
  exact ⟨he, by rw [he]; simp⟩

/-- Claim C2 (amended): the encode operation is deterministic and fails
exactly when its input blob is unreadable; every readable input, the empty
blob included, resolves with the base64 text of its bytes. -/
theorem c2_amended_encode_fails_iff_unreadable (b : Blob) :
    blobToBase64 b =
      if b.readable then Except.ok (String.mk (encodeBytes b.bytes)) else Except.error () :=
  blobToBase64_eq b

/-- Claim C4: for every valid non-empty readable audio blob, the base64 text
produced by the encode operation decodes, under the matching base64 decoder,
back to exactly the bytes of the blob. -/
theorem c4_encode_decode_roundtrip (b : Blob) (hr : b.readable = true)
    (hv : ∀ x ∈ b.bytes, x < 256) (hne : b.bytes ≠ []) :
    ∃ t, blobToBase64 b = Except.ok t ∧ decodeBytes t.toList = some b.bytes := by
  refine ⟨String.mk (encodeBytes b.bytes), ?_, ?_⟩
  · rw [blobToBase64_eq, hr]
    rfl
  · exact decodeBytes_encodeBytes b.bytes hv

/-- Witness for C4 at the concrete readable blob with bytes 77, 97, 110. -/
theorem c4_witness :
    ∃ t, blobToBase64 ⟨[77, 97, 110], true⟩ = Except.ok t ∧
      decodeBytes t.toList = some [77, 97, 110] :=
  c4_encode_decode_roundtrip ⟨[77, 97, 110], true⟩ rfl (by decide) (by decide)

/-- Claim C5: reset always yields a state with no audio blob, no audio url
and no translation result, from every state. -/
theorem c5_reset_clears_capture_and_result (s : AppState) :
    (reset s).audioBlob = none ∧ (reset s).audioUrl = none ∧ (reset s).result = none :=
  ⟨rfl, rfl, rfl⟩

/-- Claim C7: starting a new recording discards any previous capture and any
previous result: whatever the prior state and whether or not the microphone
permission is granted, the blob, the url and the result are cleared. -/
theorem c7_start_discards_previous (s : AppState) (granted : Bool) :
    (startRecording s granted).audioBlob = none ∧
      (startRecording s granted).audioUrl = none ∧
      (startRecording s granted).result = none := by
  unfold startRecording
  cases granted <;> simp

/-- Claim C8: submitting with no capture present is rejected: no encoding is
attempted, no remote request is sent, and the state is unchanged. -/
theorem c8_submit_without_capture_rejected (s : AppState) (call : CallResult)
    (h : s.audioBlob = none) :
    translateAudio s call = ⟨s, false, false⟩ := by
  unfold translateAudio
  rw [h]

/-- Witness for C8 at a concrete idle state with no capture. -/
theorem c8_witness :
    translateAudio ⟨false, false, none, none, none, none, false, []⟩ CallResult.throws =
      ⟨⟨false, false, none, none, none, none, false, []⟩, false, false⟩ :=
  c8_submit_without_capture_rejected _ _ rfl

/-- Claim C9: stopping while not recording is a no-op: the state is unchanged
and the recorder stop operation is not invoked. -/
theorem c9_stop_not_recording_noop (s : AppState) (h : s.isRecording = false) :
    stopRecording s = (s, false) := by
  unfold stopRecording
  simp [h]

/-- Witness for C9 at a concrete non-recording state that still holds a
recorder reference. -/
theorem c9_witness :
    stopRecording ⟨false, false, none, none, none, none, true, []⟩ =
      (⟨false, false, none, none, none, none, true, []⟩, false) :=
  c9_stop_not_recording_noop _ rfl

/-- Claim C3: while a submission is processing, the submit action cannot
fire: the page-level action leaves the state unchanged and sends no remote
request, because the translate button is disabled while processing. -/
theorem c3_no_submit_while_processing (s : AppState) (call : CallResult)
    (h : s.isProcessing = true) :
    submitAction s call = ⟨s, false, false⟩ := by
  unfold submitAction submitEnabled
  simp [h]

/-- Witness for C3 at a concrete processing state holding a capture. -/
theorem c3_witness :
    submitAction ⟨false, true, some "url", some ⟨[1], true⟩, none, none, true, [[1]]⟩
        CallResult.throws =
      ⟨⟨false, true, some "url", some ⟨[1], true⟩, none, none, true, [[1]]⟩, false, false⟩ :=
  c3_no_submit_while_processing _ _ rfl

/-- Claim C1 counterexample: on a remote response whose JSON object lacks the
required translation field, the controller stores the partial object and
renders it as the displayed result with no error set — the Done outcome,
not the Failed outcome the claim requires. -/
theorem c1_counterexample :
    translateAudio ⟨false, false, some "url", some ⟨[1], true⟩, none, none, true, [[1]]⟩
        (CallResult.returns (some "\x7b\"transcription\":\"hi\"\x7d")
          (Except.ok ⟨some "hi", none⟩)) =
      ⟨⟨false, false, some "url", some ⟨[1], true⟩, some ⟨some "hi", none⟩, none, true, [[1]]⟩,
        true, true⟩ ∧
      showsResult ⟨false, false, some "url", some ⟨[1], true⟩, some ⟨some "hi", none⟩, none,
        true, [[1]]⟩ = true ∧
      showsError ⟨false, false, some "url", some ⟨[1], true⟩, some ⟨some "hi", none⟩, none,
        true, [[1]]⟩ = false :=
  ⟨rfl, rfl, rfl⟩

/-- Claim C1 (amended): whenever the remote call returns truthy text whose
parse succeeds, the controller stores the parsed object as the displayed
result and sets no error — even when a required field is missing from the
object; the Failed outcome is reached only when a step throws. -/
theorem c1_amended_partial_result_rendered (s : AppState) (blob : Blob)
    (t : Option String) (r : ParsedResult)
    (hb : s.audioBlob = some blob) (hr : blob.readable = true) (ht : jsTruthy t = true) :
    (translateAudio s (CallResult.returns t (Except.ok r))).state.result = some r ∧
      (translateAudio s (CallResult.returns t (Except.ok r))).state.error = none := by
  simp [translateAudio, hb, blobToBase64_eq, hr, ht]

/-- Witness for the amended C1, at a parsed object whose translation field is
missing. -/
theorem c1_amended_witness :
    (translateAudio ⟨false, false, some "url", some ⟨[1], true⟩, none, none, true, [[1]]⟩
        (CallResult.returns (some "x") (Except.ok ⟨some "hi", none⟩))).state.result =
        some ⟨some "hi", none⟩ ∧
      (translateAudio ⟨false, false, some "url", some ⟨[1], true⟩, none, none, true, [[1]]⟩
        (CallResult.returns (some "x") (Except.ok ⟨some "hi", none⟩))).state.error = none :=
  c1_amended_partial_result_rendered _ _ _ _ rfl rfl rfl

/-- Claim C6: on every failing submission path — unreadable blob, a throwing
remote call, or a parse failure on truthy text — the controller ends not
processing, holding the fixed error message, with the audio capture it held
before submission unchanged. -/
theorem c6_failure_preserves_capture (s : AppState) (blob : Blob) (call : CallResult)
    (hb : s.audioBlob = some blob)
    (hfail : blob.readable = false ∨ call = CallResult.throws ∨
      ∃ t e, call = CallResult.returns t (Except.error e) ∧ jsTruthy t = true) :
    (translateAudio s call).state.error = some processingErrorMsg ∧
      (translateAudio s call).state.isProcessing = false ∧
      (translateAudio s call).state.audioBlob = s.audioBlob := by
  rcases hfail with hr | hc | ⟨t, e, hc, ht⟩
  · simp [translateAudio, hb, blobToBase64_eq, hr]
  · cases hr2 : blob.readable
    · simp [translateAudio, hb, blobToBase64_eq, hr2]
    · simp [translateAudio, hb, blobToBase64_eq, hr2, hc]
  · cases hr2 : blob.readable
    · simp [translateAudio, hb, blobToBase64_eq, hr2]
    · simp [translateAudio, hb, blobToBase64_eq, hr2, hc, ht]

/-- Witness for C6 at a concrete captured state whose remote call throws. -/
theorem c6_witness :
    (translateAudio ⟨false, false, some "url", some ⟨[2], true⟩, none, none, true, [[2]]⟩
        CallResult.throws).state.error = some processingErrorMsg ∧
      (translateAudio ⟨false, false, some "url", some ⟨[2], true⟩, none, none, true, [[2]]⟩
        CallResult.throws).state.isProcessing = false ∧
      (translateAudio ⟨false, false, some "url", some ⟨[2], true⟩, none, none, true, [[2]]⟩
        CallResult.throws).state.audioBlob =
        (⟨false, false, some "url", some ⟨[2], true⟩, none, none, true, [[2]]⟩ :
          AppState).audioBlob :=
  c6_failure_preserves_capture _ _ _ rfl (Or.inr (Or.inl rfl))

/-- Claim C10: when the remote call returns but its text is absent or empty,
the run is a silent no-op at the interface: no result, no error, processing
cleared, and the capture retained. -/
theorem c10_empty_response_silent_noop (s : AppState) (blob : Blob) (t : Option String)
    (p : Except Unit ParsedResult)
    (hb : s.audioBlob = some blob) (hr : blob.readable = true)
    (ht : jsTruthy t = false) (hres : s.result = none) :
    (translateAudio s (CallResult.returns t p)).state.result = none ∧
      (translateAudio s (CallResult.returns t p)).state.error = none ∧
      (translateAudio s (CallResult.returns t p)).state.isProcessing = false ∧
      (translateAudio s (CallResult.returns t p)).state.audioBlob = s.audioBlob := by
  simp [translateAudio, hb, blobToBase64_eq, hr, ht, hres]

/-- Witness for C10 at a concrete captured state whose remote call returns
with no text. -/
theorem c10_witness :
    (translateAudio ⟨false, false, some "url", some ⟨[3], true⟩, none, none, true, [[3]]⟩
        (CallResult.returns none (Except.ok ⟨none, none⟩))).state.result = none ∧
      (translateAudio ⟨false, false, some "url", some ⟨[3], true⟩, none, none, true, [[3]]⟩
        (CallResult.returns none (Except.ok ⟨none, none⟩))).state.error = none ∧
      (translateAudio ⟨false, false, some "url", some ⟨[3], true⟩, none, none, true, [[3]]⟩
        (CallResult.returns none (Except.ok ⟨none, none⟩))).state.isProcessing = false ∧
      (translateAudio ⟨false, false, some "url", some ⟨[3], true⟩, none, none, true, [[3]]⟩
        (CallResult.returns none (Except.ok ⟨none, none⟩))).state.audioBlob =
        (⟨false, false, some "url", some ⟨[3], true⟩, none, none, true, [[3]]⟩ :
          AppState).audioBlob :=
  c10_empty_response_silent_noop _ _ _ _ rfl rfl rfl rfl

end AmerApp
